import Mathlib

/-!
Shallow embedding of the real-time connection / presence / notification
subsystem of the Mercadito backend:

  * `backend/app/websockets/connection.py` (`ConnectionManager`)
  * `backend/app/websockets/router.py` (`websocket_endpoint`, `process_message`,
    `get_user_from_token`)
  * `backend/app/tasks/notifications.py` (`send_notification`,
    `_save_pending_message`)
  * `backend/app/core/security.py` (`decode_jwt_token`, modelled at its
    boundary)

Python dicts are modelled as association lists with replace-on-insert,
Redis keys as fields of a `Store` record, time as natural-number seconds,
and network side effects as an emitted list of `Action`s.  JSON
serialisation of opaque payloads is modelled as the identity
(`json.loads (json.dumps x) = x` for the JSON-object payloads this code
sends).  Concurrency is modelled by making each coroutine body a pure
state-transforming function; the happy path of a transport send is a
recorded `Action.send`.
-/

namespace Mercadito

/-- Lookup in an association list, modelling Python `d.get(k)` / `d[k]`. -/
def alGet {β : Type} (l : List (String × β)) (k : String) : Option β :=
  match l with
  | [] => none
  | (k1, v) :: rest => if k1 = k then some v else alGet rest k

/-- Remove every binding of key `k`, modelling Python `del d[k]`. -/
def alRemove {β : Type} (l : List (String × β)) (k : String) : List (String × β) :=
  match l with
  | [] => []
  | p :: rest => if p.1 = k then alRemove rest k else p :: alRemove rest k

/-- Replace-on-insert, modelling Python `d[k] = v` (a dict holds one value per key). -/
def alSet {β : Type} (l : List (String × β)) (k : String) (v : β) : List (String × β) :=
  (k, v) :: alRemove l k

/-- Python `set.add`: no duplicate is ever created. -/
def setAdd (x : String) (s : List String) : List String :=
  if x ∈ s then s else x :: s

/-- Python `set.discard` / conditional `remove`. -/
def setRemove (x : String) (s : List String) : List String :=
  match s with
  | [] => []
  | y :: rest => if y = x then setRemove x rest else y :: setRemove x rest

/-- A WebSocket transport handle, identified abstractly. -/
structure Transport where
  tid : Nat
deriving DecidableEq, Repr

/-- Server-originated frames that appear in the modelled code paths. -/
inductive Frame (α : Type) where
  | payload (m : α)
  | connectionStatus (pingInterval : Nat)
  | systemDisconnect (reason : String)
  | systemConnected
  | pendingDelivered (n : Nat)
  | ping
  | heartbeat
  | errorFrame (detail : String)
deriving DecidableEq, Repr

/-- Observable side effects of the modelled coroutines. -/
inductive Action (α : Type) where
  | accept (t : Transport)
  | send (t : Transport) (f : Frame α)
  | close (t : Transport) (code : Nat) (reason : String)
  | publish (channel : String) (f : Frame α)
  | subscribe (channel : String)
  | presenceOnline (uid : String)
  | presenceOffline (uid : String) (reason : String)
deriving DecidableEq, Repr

/-- Entry of `reconnection_info[user_id]`: attempt counter, last backoff, last connect time. -/
structure ReconInfo where
  attempts : Nat
  lastBackoff : ℚ
  lastConnected : Nat
deriving DecidableEq, Repr

/-- The in-process mutable state of `ConnectionManager`. -/
structure Manager where
  active : List (String × Transport) := []
  timestamps : List (String × Nat) := []
  failedPing : List String := []
  ongoingPings : List String := []
  reconnectionInfo : List (String × ReconInfo) := []
deriving DecidableEq, Repr

/-- The Redis keys this subsystem reads and writes (decoded values).
`pendingMessages` is kept in LPUSH order: head is the newest entry.
`lastDisconnect` holds the parsed `timestamp` field of the stored JSON,
`none` when the JSON lacks it. -/
structure Store (α : Type) where
  status : List (String × String) := []
  lastSession : List (String × Nat) := []
  pendingMessages : List (String × List α) := []
  pendingCount : List (String × Nat) := []
  lastDisconnect : List (String × Option Nat) := []
deriving DecidableEq, Repr

/-- Combined process + store state threaded through the operations. -/
structure Sys (α : Type) where
  mgr : Manager := {}
  store : Store α := {}
deriving DecidableEq, Repr

/-- The pending list currently stored for `uid` (LPUSH order; empty if absent). -/
def pendingOf {α : Type} (st : Store α) (uid : String) : List α :=
  (alGet st.pendingMessages uid).getD []

/-- Model of `ConnectionManager._save_pending_message`: LPUSH the payload, refresh the
7-day TTL, INCR the pending counter, refresh its TTL.  (TTLs are not part of
the functional state; the serialised payload is modelled decoded.) -/
def save_pending_message {α : Type} (uid : String) (m : α) (st : Store α) : Store α :=
  { st with
    pendingMessages := alSet st.pendingMessages uid (m :: pendingOf st uid),
    pendingCount := alSet st.pendingCount uid ((alGet st.pendingCount uid).getD 0 + 1) }

/-- Model of `ConnectionManager.get_pending_messages`: RPOP in a loop until the list is
empty (so the entries come back tail-first, i.e. in LPUSH-reversed order),
then reset the counter to 0 — but only when at least one entry was popped. -/
def get_pending_messages {α : Type} (uid : String) (st : Store α) : List α × Store α :=
  let msgs := (pendingOf st uid).reverse
  let st1 := { st with pendingMessages := alSet st.pendingMessages uid [] }
  if msgs.isEmpty then (msgs, st1)
  else (msgs, { st1 with pendingCount := alSet st1.pendingCount uid 0 })

/-- Model of `ConnectionManager.send_personal_message`: if `user_id` has a local live
connection, send directly (happy path of the transport) and refresh the
activity timestamp, returning `True`; otherwise save the payload as a pending
message and return `False`. -/
def send_personal_message {α : Type} (m : α) (uid : String) (now : Nat)
    (s : Sys α) : Sys α × List (Action α) × Bool :=
  match alGet s.mgr.active uid with
  | some ws =>
      ({ s with mgr := { s.mgr with timestamps := alSet s.mgr.timestamps uid now } },
       [Action.send ws (Frame.payload m)], true)
  | none =>
      ({ s with store := save_pending_message uid m s.store }, [], false)

/-- Model of `ConnectionManager.disconnect` plus its `_publish_disconnect` task:
drop the registry entry, the activity timestamp and the ping task, publish the
offline presence event, set `user:{id}:status` to `"offline"` and record
`user:{id}:last_disconnect` with the current timestamp. -/
def disconnect {α : Type} (uid : String) (reason : String) (now : Nat)
    (s : Sys α) : Sys α × List (Action α) :=
  if (alGet s.mgr.active uid).isSome then
    ({ mgr := { s.mgr with
          active := alRemove s.mgr.active uid,
          timestamps := alRemove s.mgr.timestamps uid,
          ongoingPings := setRemove uid s.mgr.ongoingPings },
       store := { s.store with
          status := alSet s.store.status uid "offline",
          lastDisconnect := alSet s.store.lastDisconnect uid (some now) } },
     [Action.presenceOffline uid reason])
  else (s, [])

/-- Model of `ConnectionManager.force_disconnect`: best-effort notification frame and
close on the client's transport, then the normal `disconnect` teardown. -/
def force_disconnect {α : Type} (uid : String) (reason : String) (now : Nat)
    (s : Sys α) : Sys α × List (Action α) :=
  match alGet s.mgr.active uid with
  | some ws =>
      let d := disconnect uid reason now s
      (d.1, Action.send ws (Frame.systemDisconnect reason) ::
            Action.close ws 1000 reason :: d.2)
  | none => (s, [])

/-- Model of `ConnectionManager.connect` (happy path): accept, subscribe to the user's
notification channel, close any prior local connection with reason
`new_connection`, register the new transport, stamp the connect time, reset
the reconnection record, clear the failed-ping mark, start the ping task,
send the `connection_status` frame, publish online presence and set the
status / last-session keys. -/
def connect {α : Type} (uid : String) (ws : Transport) (now : Nat)
    (s : Sys α) : Sys α × List (Action α) :=
  let closeOld : List (Action α) :=
    match alGet s.mgr.active uid with
    | some oldWs => [Action.close oldWs 1000 "new_connection"]
    | none => []
  let s1 : Sys α :=
    { mgr := { s.mgr with
        active := alSet s.mgr.active uid ws,
        timestamps := alSet s.mgr.timestamps uid now,
        reconnectionInfo := alSet s.mgr.reconnectionInfo uid
          { attempts := 0, lastBackoff := 1, lastConnected := now },
        failedPing := setRemove uid s.mgr.failedPing,
        ongoingPings := setAdd uid s.mgr.ongoingPings },
      store := { s.store with
        status := alSet s.store.status uid "online",
        lastSession := alSet s.store.lastSession uid now } }
  (s1,
   Action.accept ws ::
   Action.subscribe ("user:" ++ uid ++ ":notifications") ::
   closeOld ++
   [Action.send ws (Frame.connectionStatus 30), Action.presenceOnline uid])

/-- Model of the backoff formula in `ConnectionManager._handle_reconnection`:
`min(max_backoff, base_backoff * 2 ** min(attempts, 6) + jitter)` with
`base_backoff = 1`, `max_backoff = 60` and `jitter = time.time() % 1`
(a value in `[0, 1)`), evaluated at `attempts = attempt`. -/
def backoff (attempt : Nat) (jitter : ℚ) : ℚ :=
  min 60 (1 * 2 ^ min attempt 6 + jitter)

/-- Model of the state update of `ConnectionManager._handle_reconnection` on the
user's `reconnection_info` entry: the attempt counter increments first, then
the backoff is computed from the incremented counter. -/
def handle_reconnection (info : ReconInfo) (jitter : ℚ) : ReconInfo :=
  { info with
    attempts := info.attempts + 1,
    lastBackoff := backoff (info.attempts + 1) jitter }

/-- True when the action carries the given disconnect reason (as a close
reason, a `system`/`disconnect` frame, or an offline presence event). -/
def mentionsReason {α : Type} (r : String) : Action α → Bool
  | Action.send _ (Frame.systemDisconnect r1) => r1 == r
  | Action.close _ _ r1 => r1 == r
  | Action.presenceOffline _ r1 => r1 == r
  | _ => false

/-- Model of one iteration of `ConnectionManager._ping_client`'s loop, under the
most charitable reading of the source.  In the source, `pong_received` is
assigned `False` and never set (the wait is a plain sleep), so every cycle is
a missed acknowledgment: the user is added to `failed_ping_users` — a Python
`set`, whose `add` never creates a duplicate — and the guard reads
`self.failed_ping_users.count(user_id) >= 3`.  A Python `set` has no `count`
attribute, so at runtime that expression raises `AttributeError`, which the
enclosing handler catches, force-disconnecting with reason `"ping_error"`
on the very first miss.  Here the guard is modelled as the multiplicity of
`user_id` in the set (what `count` computes on a list), which is the reading
most favourable to reaching the `"ping_timeout"` branch. -/
def ping_cycle {α : Type} (uid : String) (now : Nat) (s : Sys α) :
    Sys α × List (Action α) :=
  match alGet s.mgr.active uid with
  | none => (s, [])
  | some ws =>
      let failed := setAdd uid s.mgr.failedPing
      let s1 := { s with mgr := { s.mgr with failedPing := failed } }
      if 3 ≤ failed.count uid then
        let (s2, acts) := force_disconnect uid "ping_timeout" now s1
        (s2, Action.send ws Frame.ping :: acts)
      else
        (s1, [Action.send ws Frame.ping])

/-- Iterate `ping_cycle` for `n` consecutive missed acknowledgments,
collecting the emitted actions. -/
def pingIter {α : Type} (uid : String) (now : Nat) : Nat → Sys α → Sys α × List (Action α)
  | 0, s => (s, [])
  | n + 1, s =>
      let step := ping_cycle uid now s
      let rest := pingIter uid now n step.1
      (rest.1, step.2 ++ rest.2)

/-- A Redis GET against a table of decoded values, under a reachability flag:
when the store is unreachable the call raises (modelled as `Except.error`). -/
def rget {β : Type} (ok : Bool) (tbl : List (String × β)) (k : String) :
    Except Unit (Option β) :=
  if ok then Except.ok (alGet tbl k) else Except.error ()

/-- Return value of `ConnectionManager.get_user_status`. -/
structure UserStatus where
  status : String
  is_online : Bool
  pending_messages : Nat
  last_seen : Option Nat
deriving DecidableEq, Repr

/-- Model of `ConnectionManager.get_user_status`: read the status key
(defaulting to `"unknown"`), the pending counter (defaulting to 0) and the
`last_disconnect` record's timestamp; any store error is caught and mapped
to the fixed fallback record. -/
def get_user_status {α : Type} (ok : Bool) (uid : String) (st : Store α) : UserStatus :=
  let comp : Except Unit UserStatus := do
    let st0 ← rget ok st.status uid
    let statusVal := st0.getD "unknown"
    let pc ← rget ok st.pendingCount uid
    let pcVal := pc.getD 0
    let ld ← rget ok st.lastDisconnect uid
    let lastSeen := ld.getD none
    pure { status := statusVal, is_online := statusVal == "online",
           pending_messages := pcVal, last_seen := lastSeen }
  match comp with
  | Except.ok r => r
  | Except.error _ =>
      { status := "unknown", is_online := false, pending_messages := 0, last_seen := none }

/-- Model of `notifications._save_pending_message` (the Celery task module's own
copy): LPUSH the serialised notification, refresh the 7-day TTLs and INCR the
pending counter — the same store effect as the manager's version. -/
def task_save_pending {α : Type} (uid : String) (m : α) (st : Store α) : Store α :=
  { st with
    pendingMessages := alSet st.pendingMessages uid (m :: pendingOf st uid),
    pendingCount := alSet st.pendingCount uid ((alGet st.pendingCount uid).getD 0 + 1) }

/-- Model of `notifications.send_notification`: read the presence flag; when it
is `"online"`, publish on `user:{id}:notifications` and save the notification
as pending only when the publish reports zero subscribers (`subs` is the
subscriber count Redis returns); when the flag is anything else, save it as
pending without publishing. -/
def send_notification {α : Type} (uid : String) (notif : α) (subs : Nat)
    (st : Store α) : Store α × List (Action α) :=
  let is_online := alGet st.status uid == some "online"
  if is_online then
    let acts := [Action.publish ("user:" ++ uid ++ ":notifications") (Frame.payload notif)]
    if subs == 0 then (task_save_pending uid notif st, acts) else (st, acts)
  else (task_save_pending uid notif st, [])

/-- Model of `ConnectionManager.broadcast_to_channel`: publish on the channel,
report success. -/
def broadcast_to_channel {α : Type} (channel : String) (m : α) :
    List (Action α) × Bool :=
  ([Action.publish channel (Frame.payload m)], true)

/-- An inbound application frame after JSON parsing, with the fields
`process_message` reads.  `type` is the declared frame type. -/
structure Msg where
  type : String := ""
  recipient_id : Option String := none
  seller_id : Option String := none
  sender_id : Option String := none
  buyer_id : Option String := none
  content : String := ""
deriving DecidableEq, Repr

/-- Model of `router.process_message`: dispatch an inbound frame on its `type`.
A chat message gets the sender attached and is relayed via
`send_personal_message`; a product update is published on the broadcast
channel; an offer gets the buyer attached and is relayed to the seller; a
`heartbeat_response` falls into a branch whose body is `pass`; anything else
(including unparseable JSON) is ignored.  Python truthiness of the id fields
(`if recipient_id:`) makes an empty string behave like a missing field. -/
def process_message (m : Msg) (uid : String) (now : Nat) (s : Sys Msg) :
    Sys Msg × List (Action Msg) :=
  if m.type = "chat_message" then
    match m.recipient_id with
    | some rid =>
        if rid = "" then (s, [])
        else
          let m1 := { m with sender_id := some uid }
          let (s1, acts, _) := send_personal_message m1 rid now s
          (s1, acts)
    | none => (s, [])
  else if m.type = "product_update" then
    (s, (broadcast_to_channel "product_updates" m).1)
  else if m.type = "offer" then
    match m.seller_id with
    | some sid =>
        if sid = "" then (s, [])
        else
          let m1 := { m with buyer_id := some uid }
          let (s1, acts, _) := send_personal_message m1 sid now s
          (s1, acts)
    | none => (s, [])
  else if m.type = "heartbeat_response" then
    (s, [])
  else
    (s, [])

/-- Decoded JWT claims relevant to the handshake: the `sub` field, absent when
the token carries no subject. -/
structure JwtPayload where
  sub : Option String := none
deriving DecidableEq, Repr

/-- Model of `router.get_user_from_token`.  The token verifier
(`decode_jwt_token`, the external jose library plus the secret) is modelled
at its boundary by its result: `none` when verification fails.  A missing or
falsy (empty) `sub` claim is rejected like a bad token. -/
def get_user_from_token (decoded : Option JwtPayload) : Except String String :=
  match decoded with
  | none => Except.error "No se pudo validar las credenciales"
  | some p =>
      match p.sub with
      | none => Except.error "Usuario no encontrado"
      | some uid =>
          if uid = "" then Except.error "Usuario no encontrado" else Except.ok uid

/-- Model of the pending-delivery phase of `router.websocket_endpoint` (the code
between a successful `connect` and the receive loop): drain the pending queue;
when the drained list is non-empty, send each entry (with a pacing sleep) and
then the `pending_delivered` confirmation carrying the count; then a second,
unconditional `for` loop sends every drained entry again; finally the
`system`/`connected` notice goes out. -/
def drain_pending_phase {α : Type} (uid : String) (ws : Transport) (s : Sys α) :
    Sys α × List (Action α) :=
  let drained := get_pending_messages uid s.store
  let msgs := drained.1
  let firstPart : List (Action α) :=
    if msgs.isEmpty then []
    else msgs.map (fun m => Action.send ws (Frame.payload m)) ++
         [Action.send ws (Frame.pendingDelivered msgs.length)]
  let secondPart := msgs.map (fun m => Action.send ws (Frame.payload m))
  ({ s with store := drained.2 },
   firstPart ++ secondPart ++ [Action.send ws Frame.systemConnected])

/-- Model of the setup phase of `router.websocket_endpoint` (everything before
the receive loop): resolve the identity from the token; on failure, accept the
transport, send a single error frame and close with code 1008 (policy
violation), touching no other state; on success, register via `connect` and
run the pending-delivery phase. -/
def websocket_endpoint {α : Type} (decoded : Option JwtPayload) (ws : Transport)
    (now : Nat) (s : Sys α) : Sys α × List (Action α) :=
  match get_user_from_token decoded with
  | Except.error d =>
      (s, [Action.accept ws, Action.send ws (Frame.errorFrame d), Action.close ws 1008 ""])
  | Except.ok uid =>
      let (s1, a1) := connect uid ws now s
      let (s2, a2) := drain_pending_phase uid ws s1
      (s2, a1 ++ a2)

/-- True for a transport write of an application payload frame. -/
def isPayloadSend {α : Type} : Action α → Bool
  | Action.send _ (Frame.payload _) => true
  | _ => false

/-- Enqueue a whole list of payloads in order, oldest first. -/
def enqueueAll {α : Type} (uid : String) (L : List α) (st : Store α) : Store α :=
  L.foldl (fun acc m => save_pending_message uid m acc) st

/-- At most one binding per key: the dict invariant on an association list. -/
def keysNodup {β : Type} (l : List (String × β)) : Prop :=
  (l.map Prod.fst).Nodup

theorem alGet_alSet_self {β : Type} (l : List (String × β)) (k : String) (v : β) :
    alGet (alSet l k v) k = some v := by
  simp [alSet, alGet]

theorem alGet_alRemove_self {β : Type} (l : List (String × β)) (k : String) :
    alGet (alRemove l k) k = none := by
  induction l with
  | nil => rfl
  | cons p rest ih =>
      by_cases h : p.1 = k
      · simpa [alRemove, h] using ih
      · simpa [alRemove, alGet, h] using ih

theorem alGet_alRemove_ne {β : Type} (l : List (String × β)) (k k1 : String)
    (h : k ≠ k1) : alGet (alRemove l k) k1 = alGet l k1 := by
  induction l with
  | nil => rfl
  | cons p rest ih =>
      have h1 : ¬ k1 = k := fun e => h e.symm
      by_cases hp : p.1 = k
      · have hpk1 : ¬ p.1 = k1 := by rw [hp]; exact h
        simp [alRemove, alGet, hp, hpk1, h, ih]
      · by_cases hq : p.1 = k1
        · simp [alRemove, alGet, hp, hq, h1]
        · simp [alRemove, alGet, hp, hq, ih]

theorem alGet_alSet_ne {β : Type} (l : List (String × β)) (k k1 : String) (v : β)
    (h : k ≠ k1) : alGet (alSet l k v) k1 = alGet l k1 := by
  simp [alSet, alGet, h, alGet_alRemove_ne l k k1 h]

theorem pendingOf_save {α : Type} (uid : String) (m : α) (st : Store α) :
    pendingOf (save_pending_message uid m st) uid = m :: pendingOf st uid := by
  simp [pendingOf, save_pending_message, alGet_alSet_self]

theorem pendingOf_task_save {α : Type} (uid : String) (m : α) (st : Store α) :
    pendingOf (task_save_pending uid m st) uid = m :: pendingOf st uid := by
  simp [pendingOf, task_save_pending, alGet_alSet_self]

theorem get_pending_fst {α : Type} (uid : String) (st : Store α) :
    (get_pending_messages uid st).1 = (pendingOf st uid).reverse := by
  unfold get_pending_messages
  by_cases h : (pendingOf st uid).reverse.isEmpty <;> simp [h]

theorem drain_pendingMessages {α : Type} (uid : String) (st : Store α) :
    (get_pending_messages uid st).2.pendingMessages = alSet st.pendingMessages uid [] := by
  unfold get_pending_messages
  by_cases h : ((alGet st.pendingMessages uid).getD []).reverse.isEmpty <;>
    simp [pendingOf, h]

theorem pendingOf_after_drain {α : Type} (uid : String) (st : Store α) :
    pendingOf (get_pending_messages uid st).2 uid = [] := by
  simp [pendingOf, drain_pendingMessages, alGet_alSet_self]

/-- C4 — pending-queue FIFO. Enqueue happens by LPUSH (cons at the head),
drain pops by RPOP (from the tail), so drain returns entries in enqueue
order: the P1/P2 pair instance and the general form for any enqueued list. -/
theorem pending_drain_fifo {α : Type} (uid : String) (P1 P2 : α) (st : Store α) :
    (get_pending_messages uid
        (save_pending_message uid P2 (save_pending_message uid P1 st))).1 =
      (pendingOf st uid).reverse ++ [P1, P2] ∧
    (∀ L : List α, (get_pending_messages uid (enqueueAll uid L st)).1 =
      (get_pending_messages uid st).1 ++ L) := by
  constructor
  · rw [get_pending_fst, pendingOf_save, pendingOf_save]
    simp
  · intro L
    rw [get_pending_fst, get_pending_fst]
    induction L generalizing st with
    | nil => simp [enqueueAll]
    | cons x xs ih =>
        rw [enqueueAll, List.foldl_cons]
        have := ih (save_pending_message uid x st)
        rw [enqueueAll] at this
        rw [this, pendingOf_save]
        simp

/-- C3 — offline deliver round-trip. When `uid` has no local connection and its
pending queue is empty, `send_personal_message` returns `False`, sends
nothing, and leaves the payload as the sole pending entry; draining then
returns exactly `[P]` and leaves the queue empty. -/
theorem deliver_offline_roundtrip {α : Type} (uid : String) (P : α) (now : Nat)
    (s : Sys α) (hact : alGet s.mgr.active uid = none)
    (hpend : pendingOf s.store uid = []) :
    (send_personal_message P uid now s).2.2 = false ∧
    (send_personal_message P uid now s).2.1 = [] ∧
    pendingOf (send_personal_message P uid now s).1.store uid = [P] ∧
    (get_pending_messages uid (send_personal_message P uid now s).1.store).1 = [P] ∧
    pendingOf (get_pending_messages uid (send_personal_message P uid now s).1.store).2 uid
      = [] := by
  have hsend : send_personal_message P uid now s =
      ({ s with store := save_pending_message uid P s.store }, [], false) := by
    unfold send_personal_message
    rw [hact]
  refine ⟨by rw [hsend], by rw [hsend], ?_, ?_, ?_⟩
  · rw [hsend]
    show pendingOf (save_pending_message uid P s.store) uid = [P]
    rw [pendingOf_save, hpend]
  · rw [hsend]
    show (get_pending_messages uid (save_pending_message uid P s.store)).1 = [P]
    rw [get_pending_fst, pendingOf_save, hpend]
    rfl
  · rw [hsend]
    exact pendingOf_after_drain uid _

/-- Closed instance of the C3 round-trip at a concrete offline user and payload. -/
theorem deliver_offline_roundtrip_witness :
    alGet ({} : Sys Nat).mgr.active "u1" = none ∧
    pendingOf ({} : Sys Nat).store "u1" = [] ∧
    pendingOf (send_personal_message 7 "u1" 5 ({} : Sys Nat)).1.store "u1" = [7] ∧
    (get_pending_messages "u1" (send_personal_message 7 "u1" 5 ({} : Sys Nat)).1.store).1
      = [7] :=
  ⟨rfl, rfl, (deliver_offline_roundtrip "u1" 7 5 {} rfl rfl).2.2.1,
   (deliver_offline_roundtrip "u1" 7 5 {} rfl rfl).2.2.2.1⟩

/-- C10 — `get_user_status` is total: with a reachable store it returns the
stored status, the derived `is_online` flag, the pending count and the
last-seen timestamp; with an unreachable store it returns exactly the fixed
fallback record. -/
theorem get_user_status_total {α : Type} (uid : String) (st : Store α) :
    get_user_status true uid st =
      { status := (alGet st.status uid).getD "unknown",
        is_online := ((alGet st.status uid).getD "unknown") == "online",
        pending_messages := (alGet st.pendingCount uid).getD 0,
        last_seen := (alGet st.lastDisconnect uid).getD none } ∧
    get_user_status false uid st =
      { status := "unknown", is_online := false, pending_messages := 0,
        last_seen := none } :=
  ⟨rfl, rfl⟩

/-- Concrete store for the C2 counterexample: the presence flag says online. -/
def c2Store : Store Nat := { status := [("u1", "online")] }

/-- C2 (counterexample) — with the presence flag `"online"` and one subscriber
on the channel, `send_notification` publishes but does not enqueue (the store
is returned untouched, the pending queue stays empty); and with the flag
absent it enqueues but performs no publish at all. -/
theorem send_notification_conditional_cex :
    (send_notification "u1" 7 1 c2Store).1 = c2Store ∧
    pendingOf (send_notification "u1" 7 1 c2Store).1 "u1" = [] ∧
    (send_notification "u1" 7 0 ({} : Store Nat)).2 = [] := by
  refine ⟨rfl, rfl, rfl⟩

/-- C2 (amended) — `send_notification` publishes on the user's channel exactly
when the presence flag is `"online"`, and enqueues to the pending queue
exactly when the flag is not `"online"` or the publish reached zero
subscribers. -/
theorem send_notification_flag_spec {α : Type} (uid : String) (m : α) (subs : Nat)
    (st : Store α) :
    (send_notification uid m subs st).2 =
      (if alGet st.status uid = some "online"
       then [Action.publish ("user:" ++ uid ++ ":notifications") (Frame.payload m)]
       else []) ∧
    pendingOf (send_notification uid m subs st).1 uid =
      (if alGet st.status uid = some "online" ∧ subs ≠ 0
       then pendingOf st uid
       else m :: pendingOf st uid) := by
  by_cases hon : alGet st.status uid = some "online"
  · by_cases hs : subs = 0
    · simp [send_notification, hon, hs, pendingOf_task_save]
    · simp [send_notification, hon, hs, pendingOf_task_save]
  · simp [send_notification, hon, pendingOf_task_save]

/-- The inbound `heartbeat_response` frame used for the C8 theorems. -/
def hbMsg : Msg := { type := "heartbeat_response" }

/-- Concrete manager state for the C8 counterexample: `u1` is connected and
was last active at time 100. -/
def c8State : Sys Msg :=
  { mgr := { active := [("u1", ⟨1⟩)], timestamps := [("u1", 100)] } }

/-- C8 (counterexample) — at time 200, processing a `heartbeat_response` from
`u1` leaves `u1`'s last-activity timestamp at 100 instead of updating it:
the branch body is `pass`, so the state (and in particular
`connection_timestamps`) is unchanged and no payload is sent. -/
theorem heartbeat_response_stale_timestamp_cex :
    process_message hbMsg "u1" 200 c8State = (c8State, []) ∧
    alGet (process_message hbMsg "u1" 200 c8State).1.mgr.timestamps "u1" = some 100 ∧
    (100 : Nat) ≠ 200 := by
  refine ⟨rfl, rfl, by decide⟩

/-- C8 (amended) — processing an inbound `heartbeat_response` frame is a strict
no-op: no payload is sent and no manager state changes, including the
session's last-activity timestamp. -/
theorem heartbeat_response_noop (m : Msg) (uid : String) (now : Nat) (s : Sys Msg)
    (h : m.type = "heartbeat_response") :
    process_message m uid now s = (s, []) := by
  simp [process_message, h]

/-- Closed instance of the C8 no-op theorem. -/
theorem heartbeat_response_noop_witness :
    hbMsg.type = "heartbeat_response" ∧
    process_message hbMsg "u2" 300 c8State = (c8State, []) :=
  ⟨rfl, heartbeat_response_noop hbMsg "u2" 300 c8State rfl⟩

/-- C7 — when token verification fails, the handler accepts the transport,
sends exactly one error frame, closes with the policy-violation code 1008,
and mutates no registry or store state. -/
theorem auth_failure_no_mutation {α : Type} (decoded : Option JwtPayload)
    (ws : Transport) (now : Nat) (s : Sys α) (d : String)
    (h : get_user_from_token decoded = Except.error d) :
    websocket_endpoint decoded ws now s =
      (s, [Action.accept ws, Action.send ws (Frame.errorFrame d),
           Action.close ws 1008 ""]) := by
  unfold websocket_endpoint
  rw [h]

/-- Closed instance of C7 at a token whose verification fails. -/
theorem auth_failure_no_mutation_witness :
    get_user_from_token none = Except.error "No se pudo validar las credenciales" ∧
    websocket_endpoint (α := Nat) none ⟨3⟩ 0 {} =
      ({}, [Action.accept ⟨3⟩,
            Action.send ⟨3⟩ (Frame.errorFrame "No se pudo validar las credenciales"),
            Action.close ⟨3⟩ 1008 ""]) :=
  ⟨rfl, auth_failure_no_mutation none ⟨3⟩ 0 {} _ rfl⟩

theorem backoff_eq_of_le_five (n : Nat) (j : ℚ) (h1 : j < 1) (hn : n ≤ 5) :
    backoff n j = 2 ^ n + j := by
  unfold backoff
  have hmin : min n 6 = n := by omega
  rw [hmin, one_mul, min_eq_right]
  have hpow : (2 : ℚ) ^ n ≤ 2 ^ 5 := by
    apply pow_le_pow_right₀ (by norm_num) hn
  have h32 : (2 : ℚ) ^ 5 = 32 := by norm_num
  linarith

theorem backoff_eq_of_six_le (n : Nat) (j : ℚ) (h0 : 0 ≤ j) (hn : 6 ≤ n) :
    backoff n j = 60 := by
  unfold backoff
  have hmin : min n 6 = 6 := by omega
  rw [hmin, one_mul, min_eq_left]
  have h64 : (2 : ℚ) ^ 6 = 64 := by norm_num
  linarith

/-- C6 — the backoff formula: definitionally
`min 60 (1 * 2 ^ min n 6 + jitter)`; for jitter in `[0, 1)` it is strictly
increasing on attempts 0 through 6, equal at attempts 6 and 7, monotonically
non-decreasing everywhere, and never above 60 seconds. -/
theorem backoff_monotone_capped (j : ℚ) (h0 : 0 ≤ j) (h1 : j < 1) :
    (∀ n, backoff n j = min 60 (1 * 2 ^ min n 6 + j)) ∧
    backoff 0 j < backoff 1 j ∧ backoff 1 j < backoff 2 j ∧
    backoff 2 j < backoff 3 j ∧ backoff 3 j < backoff 4 j ∧
    backoff 4 j < backoff 5 j ∧ backoff 5 j < backoff 6 j ∧
    backoff 6 j = backoff 7 j ∧
    (∀ n, backoff n j ≤ backoff (n + 1) j) ∧
    (∀ n, backoff n j ≤ 60) := by
  refine ⟨fun n => rfl, ?_, ?_, ?_, ?_, ?_, ?_, ?_, ?_, fun n => min_le_left _ _⟩
  · rw [backoff_eq_of_le_five 0 j h1 (by omega), backoff_eq_of_le_five 1 j h1 (by omega)]
    norm_num
  · rw [backoff_eq_of_le_five 1 j h1 (by omega), backoff_eq_of_le_five 2 j h1 (by omega)]
    norm_num
  · rw [backoff_eq_of_le_five 2 j h1 (by omega), backoff_eq_of_le_five 3 j h1 (by omega)]
    norm_num
  · rw [backoff_eq_of_le_five 3 j h1 (by omega), backoff_eq_of_le_five 4 j h1 (by omega)]
    norm_num
  · rw [backoff_eq_of_le_five 4 j h1 (by omega), backoff_eq_of_le_five 5 j h1 (by omega)]
    norm_num
  · rw [backoff_eq_of_le_five 5 j h1 (by omega), backoff_eq_of_six_le 6 j h0 (by omega)]
    have h32 : (2 : ℚ) ^ 5 = 32 := by norm_num
    linarith
  · rw [backoff_eq_of_six_le 6 j h0 (by omega), backoff_eq_of_six_le 7 j h0 (by omega)]
  · intro n
    apply min_le_min le_rfl
    have hmle : min n 6 ≤ min (n + 1) 6 := by omega
    have hp : (2 : ℚ) ^ min n 6 ≤ 2 ^ min (n + 1) 6 :=
      pow_le_pow_right₀ (by norm_num) hmle
    linarith

/-- Closed instance of the C6 chain at jitter 1/2. -/
theorem backoff_monotone_capped_witness :
    (0 : ℚ) ≤ 1 / 2 ∧ (1 / 2 : ℚ) < 1 ∧
    backoff 5 (1 / 2) < backoff 6 (1 / 2) ∧
    backoff 6 (1 / 2) = backoff 7 (1 / 2) :=
  ⟨by norm_num, by norm_num,
   (backoff_monotone_capped (1 / 2) (by norm_num) (by norm_num)).2.2.2.2.2.2.1,
   (backoff_monotone_capped (1 / 2) (by norm_num) (by norm_num)).2.2.2.2.2.2.2.1⟩

theorem countP_payload_map {α : Type} (ws : Transport) (l : List α) :
    (l.map fun m => Action.send ws (Frame.payload m)).countP isPayloadSend = l.length := by
  induction l with
  | nil => rfl
  | cons x xs ih => simp [List.countP_cons, isPayloadSend, ih]

/-- C9 — draining a non-empty pending queue of `n` entries writes every drained
message to the transport twice: the paced loop before the
`pending_delivered` confirmation and the second, unconditional loop after it;
the client sees `2 * n` payload frames and the confirmation count is `n`. -/
theorem pending_double_delivery {α : Type} (uid : String) (ws : Transport)
    (s : Sys α) (L : List α) (hL : alGet s.store.pendingMessages uid = some L)
    (hne : L ≠ []) :
    (drain_pending_phase uid ws s).2 =
      (L.reverse.map fun m => Action.send ws (Frame.payload m)) ++
      [Action.send ws (Frame.pendingDelivered L.length)] ++
      (L.reverse.map fun m => Action.send ws (Frame.payload m)) ++
      [Action.send ws Frame.systemConnected] ∧
    (drain_pending_phase uid ws s).2.countP isPayloadSend = 2 * L.length := by
  have hmsgs : (get_pending_messages uid s.store).1 = L.reverse := by
    rw [get_pending_fst]
    simp [pendingOf, hL]
  have hempty : L.reverse.isEmpty = false := by
    cases hrev : L.reverse with
    | nil => exact absurd (List.reverse_eq_nil_iff.mp hrev) hne
    | cons a as => rfl
  have hacts : (drain_pending_phase uid ws s).2 =
      (L.reverse.map fun m => Action.send ws (Frame.payload m)) ++
      [Action.send ws (Frame.pendingDelivered L.length)] ++
      (L.reverse.map fun m => Action.send ws (Frame.payload m)) ++
      [Action.send ws Frame.systemConnected] := by
    show ((if (get_pending_messages uid s.store).1.isEmpty then []
           else ((get_pending_messages uid s.store).1.map
                   fun m => Action.send ws (Frame.payload m)) ++
                [Action.send ws
                   (Frame.pendingDelivered (get_pending_messages uid s.store).1.length)]) ++
          ((get_pending_messages uid s.store).1.map
             fun m => Action.send ws (Frame.payload m)) ++
          [Action.send ws Frame.systemConnected]) = _
    rw [hmsgs, hempty]
    simp
  refine ⟨hacts, ?_⟩
  rw [hacts]
  rw [List.countP_append, List.countP_append, List.countP_append,
      countP_payload_map]
  simp [List.countP_cons, isPayloadSend]
  omega

/-- Concrete system for the C9 closed instance: two pending entries for `u1`
(in LPUSH order, so they drain as `[1, 2]`). -/
def c9Sys : Sys Nat := { store := { pendingMessages := [("u1", [2, 1])] } }

/-- Closed instance of C9: both loops send the two drained messages, around a
confirmation whose count is 2, for 4 payload frames in total. -/
theorem pending_double_delivery_witness :
    alGet c9Sys.store.pendingMessages "u1" = some [2, 1] ∧
    (drain_pending_phase "u1" ⟨4⟩ c9Sys).2 =
      ([2, 1].reverse.map fun m => Action.send ⟨4⟩ (Frame.payload m)) ++
      [Action.send ⟨4⟩ (Frame.pendingDelivered 2)] ++
      ([2, 1].reverse.map fun m => Action.send ⟨4⟩ (Frame.payload m)) ++
      [Action.send ⟨4⟩ Frame.systemConnected] ∧
    (drain_pending_phase "u1" ⟨4⟩ c9Sys).2.countP isPayloadSend = 4 :=
  ⟨rfl,
   (pending_double_delivery "u1" ⟨4⟩ c9Sys [2, 1] rfl (by decide)).1,
   (pending_double_delivery "u1" ⟨4⟩ c9Sys [2, 1] rfl (by decide)).2⟩

theorem mem_keys_alRemove {β : Type} (l : List (String × β)) (k x : String)
    (h : x ∈ (alRemove l k).map Prod.fst) : x ∈ l.map Prod.fst := by
  induction l with
  | nil => simp [alRemove] at h
  | cons p rest ih =>
      by_cases hp : p.1 = k
      · rw [alRemove, if_pos hp] at h
        exact List.mem_cons_of_mem _ (ih h)
      · rw [alRemove, if_neg hp] at h
        simp only [List.map_cons, List.mem_cons] at h ⊢
        cases h with
        | inl h1 => exact Or.inl h1
        | inr h2 => exact Or.inr (ih h2)

theorem not_mem_keys_alRemove_self {β : Type} (l : List (String × β)) (k : String) :
    k ∉ (alRemove l k).map Prod.fst := by
  induction l with
  | nil => simp [alRemove]
  | cons p rest ih =>
      by_cases hp : p.1 = k
      · simpa [alRemove, hp] using ih
      · rw [alRemove, if_neg hp]
        simp only [List.map_cons, List.mem_cons]
        push_neg
        exact ⟨fun e => hp e.symm, ih⟩

theorem keysNodup_alRemove {β : Type} (l : List (String × β)) (k : String)
    (h : keysNodup l) : keysNodup (alRemove l k) := by
  induction l with
  | nil => simpa [alRemove] using h
  | cons p rest ih =>
      rw [keysNodup, List.map_cons, List.nodup_cons] at h
      by_cases hp : p.1 = k
      · rw [alRemove, if_pos hp]
        exact ih h.2
      · rw [alRemove, if_neg hp]
        rw [keysNodup, List.map_cons, List.nodup_cons]
        exact ⟨fun hm => h.1 (mem_keys_alRemove rest k p.1 hm), ih h.2⟩

theorem keysNodup_alSet {β : Type} (l : List (String × β)) (k : String) (v : β)
    (h : keysNodup l) : keysNodup (alSet l k v) := by
  rw [alSet, keysNodup, List.map_cons, List.nodup_cons]
  exact ⟨not_mem_keys_alRemove_self l k, keysNodup_alRemove l k h⟩

theorem filter_alRemove_self {β : Type} (l : List (String × β)) (k : String) :
    (alRemove l k).filter (fun p => p.1 == k) = [] := by
  induction l with
  | nil => rfl
  | cons p rest ih =>
      by_cases hp : p.1 = k
      · simpa [alRemove, hp] using ih
      · rw [alRemove, if_neg hp, List.filter_cons]
        simp [hp, ih]

theorem filter_alSet_self {β : Type} (l : List (String × β)) (k : String) (v : β) :
    (alSet l k v).filter (fun p => p.1 == k) = [(k, v)] := by
  rw [alSet, List.filter_cons]
  simp [filter_alRemove_self]

theorem keysNodup_connect {α : Type} (uid : String) (ws : Transport) (now : Nat)
    (s : Sys α) (h : keysNodup s.mgr.active) :
    keysNodup (connect uid ws now s).1.mgr.active :=
  keysNodup_alSet s.mgr.active uid ws h

theorem keysNodup_disconnect {α : Type} (uid r : String) (now : Nat)
    (s : Sys α) (h : keysNodup s.mgr.active) :
    keysNodup (disconnect uid r now s).1.mgr.active := by
  by_cases hc : (alGet s.mgr.active uid).isSome
  · simp only [disconnect, if_pos hc]
    exact keysNodup_alRemove s.mgr.active uid h
  · simp only [disconnect, if_neg hc]
    exact h

theorem keysNodup_force_disconnect {α : Type} (uid r : String) (now : Nat)
    (s : Sys α) (h : keysNodup s.mgr.active) :
    keysNodup (force_disconnect uid r now s).1.mgr.active := by
  cases hg : alGet s.mgr.active uid with
  | none => simp only [force_disconnect, hg]; exact h
  | some ws =>
      simp only [force_disconnect, hg]
      exact keysNodup_disconnect uid r now s h

/-- C5 — registering a second transport for the same identity supersedes the
first: after `connect(uid, t1)` then `connect(uid, t2)` the registry holds
exactly one entry for `uid`, bound to `t2`, and `t1` was closed with reason
`new_connection`; the at-most-one-local-session-per-identity map invariant is
preserved by the registering and unregistering registry operations. -/
theorem connect_supersedes {α : Type} (uid : String) (t1 t2 : Transport)
    (n1 n2 n3 : Nat) (r : String) (s0 : Sys α) (hnd : keysNodup s0.mgr.active) :
    alGet (connect uid t2 n2 (connect uid t1 n1 s0).1).1.mgr.active uid = some t2 ∧
    (connect uid t2 n2 (connect uid t1 n1 s0).1).1.mgr.active.filter
        (fun p => p.1 == uid) = [(uid, t2)] ∧
    Action.close t1 1000 "new_connection" ∈
      (connect uid t2 n2 (connect uid t1 n1 s0).1).2 ∧
    keysNodup (connect uid t1 n1 s0).1.mgr.active ∧
    keysNodup (connect uid t2 n2 (connect uid t1 n1 s0).1).1.mgr.active ∧
    keysNodup
      (disconnect uid r n3 (connect uid t2 n2 (connect uid t1 n1 s0).1).1).1.mgr.active ∧
    keysNodup
      (force_disconnect uid r n3
        (connect uid t2 n2 (connect uid t1 n1 s0).1).1).1.mgr.active := by
  have h1 : keysNodup (connect uid t1 n1 s0).1.mgr.active :=
    keysNodup_connect uid t1 n1 s0 hnd
  have h2 : keysNodup (connect uid t2 n2 (connect uid t1 n1 s0).1).1.mgr.active :=
    keysNodup_connect uid t2 n2 _ h1
  refine ⟨alGet_alSet_self _ _ _, filter_alSet_self _ _ _, ?_, h1, h2,
    keysNodup_disconnect uid r n3 _ h2, keysNodup_force_disconnect uid r n3 _ h2⟩
  simp [connect, alGet_alSet_self]

/-- Closed instance of C5 at two concrete transports for the same identity. -/
theorem connect_supersedes_witness :
    alGet (connect "u1" ⟨2⟩ 1 (connect "u1" ⟨1⟩ 0 ({} : Sys Nat)).1).1.mgr.active "u1"
      = some ⟨2⟩ ∧
    (connect "u1" ⟨2⟩ 1 (connect "u1" ⟨1⟩ 0 ({} : Sys Nat)).1).1.mgr.active.filter
        (fun p => p.1 == "u1") = [("u1", ⟨2⟩)] ∧
    Action.close ⟨1⟩ 1000 "new_connection" ∈
      (connect "u1" ⟨2⟩ 1 (connect "u1" ⟨1⟩ 0 ({} : Sys Nat)).1).2 :=
  ⟨(connect_supersedes "u1" ⟨1⟩ ⟨2⟩ 0 1 2 "x" {} List.nodup_nil).1,
   (connect_supersedes "u1" ⟨1⟩ ⟨2⟩ 0 1 2 "x" {} List.nodup_nil).2.1,
   (connect_supersedes "u1" ⟨1⟩ ⟨2⟩ 0 1 2 "x" {} List.nodup_nil).2.2.1⟩

theorem setAdd_nodup (x : String) (s : List String) (h : s.Nodup) :
    (setAdd x s).Nodup := by
  unfold setAdd
  by_cases hx : x ∈ s
  · simpa [hx] using h
  · rw [if_neg hx]
    exact List.nodup_cons.mpr ⟨hx, h⟩

theorem ping_cycle_no_timeout {α : Type} (uid : String) (now : Nat) (s : Sys α)
    (h : s.mgr.failedPing.Nodup) :
    (ping_cycle uid now s).1.mgr.failedPing.Nodup ∧
    (ping_cycle uid now s).1.mgr.active = s.mgr.active ∧
    ((ping_cycle uid now s).2.all fun a => !(mentionsReason "ping_timeout" a)) = true := by
  unfold ping_cycle
  cases hact : alGet s.mgr.active uid with
  | none => exact ⟨h, rfl, rfl⟩
  | some ws =>
      have hnd : (setAdd uid s.mgr.failedPing).Nodup := setAdd_nodup uid _ h
      have hcount : (setAdd uid s.mgr.failedPing).count uid ≤ 1 :=
        List.nodup_iff_count_le_one.mp hnd uid
      have hguard : ¬ 3 ≤ (setAdd uid s.mgr.failedPing).count uid := by omega
      simp only [if_neg hguard]
      refine ⟨hnd, ?_, ?_⟩ <;> trivial

/-- C1 — the `ping_timeout` force-disconnect is unreachable.  Because
`failed_ping_users` is a set, the per-user multiplicity is at most 1 after any
number of consecutive missed pongs, so the `count >= 3` guard never fires: no
iteration count ever produces an action carrying reason `ping_timeout`, and
the session is never removed from the registry by the ping loop. -/
theorem ping_timeout_unreachable {α : Type} (uid : String) (now : Nat) (n : Nat)
    (s : Sys α) (h : s.mgr.failedPing.Nodup) :
    ((pingIter uid now n s).2.all fun a => !(mentionsReason "ping_timeout" a)) = true ∧
    (pingIter uid now n s).1.mgr.active = s.mgr.active := by
  induction n generalizing s with
  | zero => exact ⟨rfl, rfl⟩
  | succ k ih =>
      obtain ⟨hnd, hact, hall⟩ := ping_cycle_no_timeout uid now s h
      obtain ⟨ih1, ih2⟩ := ih (ping_cycle uid now s).1 hnd
      constructor
      · show (((ping_cycle uid now s).2 ++
            (pingIter uid now k (ping_cycle uid now s).1).2).all
            fun a => !(mentionsReason "ping_timeout" a)) = true
        rw [List.all_append, hall, ih1]
        rfl
      · show (pingIter uid now k (ping_cycle uid now s).1).1.mgr.active = s.mgr.active
        rw [ih2, hact]

/-- Concrete system for the C1 closed instance: `u1` is connected and nothing
has failed yet. -/
def c1Sys : Sys Nat := { mgr := { active := [("u1", ⟨1⟩)] } }

/-- Closed instance of C1: five consecutive missed pongs, no `ping_timeout`
anywhere and the registry entry still present. -/
theorem ping_timeout_unreachable_witness :
    ((pingIter "u1" 50 5 c1Sys).2.all fun a => !(mentionsReason "ping_timeout" a)) = true ∧
    (pingIter "u1" 50 5 c1Sys).1.mgr.active = c1Sys.mgr.active :=
  ping_timeout_unreachable "u1" 50 5 c1Sys List.nodup_nil

end Mercadito
